import Mathlib

/-!
Verification of the level and logger contract of the `log` package.

The definitions below are a shallow embedding of `src/levels.go`
(the `Level` type, its constants, `Level.String` and `ParseLogLevel`)
and, where the repository only declares an interface, a model built
from the specification. Go `int` is embedded as `Int`; the Go pair
`(Level, error)` is embedded as `Level × Option String` where `none`
is the nil error and `some msg` carries the error message text.
-/

namespace Log

/-- Embeds the Go type `Level int` from src/levels.go. -/
abbrev Level := Int

/-- LevelUndefined is the zero value of Level. -/
def LevelUndefined : Level := 0

/-- LevelFatal, next in the iota sequence. -/
def LevelFatal : Level := 1

/-- LevelCritical. -/
def LevelCritical : Level := 2

/-- LevelError. -/
def LevelError : Level := 3

/-- LevelWarning. -/
def LevelWarning : Level := 4

/-- LevelInfo. -/
def LevelInfo : Level := 5

/-- LevelDebug. -/
def LevelDebug : Level := 6

/-- LevelTrace, last in the iota sequence. -/
def LevelTrace : Level := 7

/-- Embeds the method `Level.String` of src/levels.go: a switch with one
branch per defined constant and a fallthrough result of "unknown". -/
def levelString (logLevel : Level) : String :=
  if logLevel = LevelUndefined then "undefined"
  else if logLevel = LevelTrace then "trace"
  else if logLevel = LevelDebug then "debug"
  else if logLevel = LevelInfo then "info"
  else if logLevel = LevelWarning then "warning"
  else if logLevel = LevelError then "error"
  else if logLevel = LevelCritical then "critical"
  else if logLevel = LevelFatal then "fatal"
  else "unknown"

/-- Embeds the per-character lowering done by Go strings.ToLower for the
ASCII range, which is the only range the level aliases use: a character
with code in [65, 90] is shifted by 32, every other character is kept. -/
def goToLowerChar (c : Char) : Char :=
  if 65 ≤ c.toNat ∧ c.toNat ≤ 90 then Char.ofNat (c.toNat + 32) else c

/-- Embeds Go strings.ToLower: lower every character of the string. -/
def goToLower (s : String) : String :=
  ⟨s.data.map goToLowerChar⟩

/-- Embeds the loop in ParseLogLevel of src/levels.go that collects
`logLevel.String()` for `logLevel` running from LevelFatal to LevelDebug
inclusive. -/
def allowedValues : List String :=
  (List.range (LevelDebug - LevelFatal + 1).toNat).map
    (fun i => levelString (LevelFatal + (i : Int)))

/-- Embeds the `fmt.Errorf` format string of src/levels.go line 87:
`unknown logging level <in>, known values are: <joined list>`, with the
original (not lowered) input interpolated between single quotes. -/
def parseErrorMessage (s : String) : String :=
  "unknown logging level \x27" ++ s ++ "\x27, known values are: " ++
    String.intercalate ", " allowedValues

/-- Embeds `ParseLogLevel` of src/levels.go: a switch over the lowered
input with the alias groups of the source, falling through to
`(LevelUndefined, error)` on no match. -/
def ParseLogLevel (s : String) : Level × Option String :=
  match goToLower s with
  | "t" | "trace" => (LevelDebug, none)
  | "d" | "debug" => (LevelDebug, none)
  | "i" | "info" => (LevelInfo, none)
  | "w" | "warn" | "warning" => (LevelWarning, none)
  | "e" | "err" | "error" => (LevelError, none)
  | "c" | "critical" => (LevelCritical, none)
  | "f" | "fatal" => (LevelFatal, none)
  | _ => (LevelUndefined, some (parseErrorMessage s))

/-- Modelled from the spec: the repository defines the Logger only as an
interface (src/interfaces.go and the design document under src/unnamed);
no implementation is under src/. Following sections 3 and 4.4 of the
spec, a Logger carries an accumulated ordered Fields sequence, a current
Level and an ordered list of Hooks; field values and hooks are kept
abstract as type parameters. -/
structure Logger (V H : Type) where
  fields : List (String × V)
  level : Level
  hooks : List H

/-- Modelled from the spec: reading a key from a Fields sequence with
last-write-wins resolution — a later entry with an equal key shadows an
earlier one. -/
def fieldsGet {V : Type} : List (String × V) → String → Option V
  | [], _ => none
  | p :: rest, k =>
    match fieldsGet rest k with
    | some v => some v
    | none => if p.1 = k then some p.2 else none

/-- Modelled from the spec, section 4.4: WithFields returns a new Logger
whose Fields are the receiver Fields merged with the new fields by
concatenation (last-write-wins on read), Level and Hooks unchanged.
The receiver itself is a pure value and is never mutated. -/
def Logger.WithFields {V H : Type} (l : Logger V H) (f : List (String × V)) :
    Logger V H :=
  { l with fields := l.fields ++ f }

/-- An ASCII code below 55296 is a valid scalar value, so Char.ofNat is
faithful on it. -/
theorem toNat_ofNat_valid (n : Nat) (h : n < 55296) : (Char.ofNat n).toNat = n := by
  have hv : n.isValidChar := Or.inl (by omega)
  simp [Char.ofNat, hv, Char.ofNatAux, Char.toNat, UInt32.toNat,
    Nat.mod_eq_of_lt (by omega : n < 4294967296)]

/-- Lowering a character twice is the same as lowering it once. -/
theorem goToLowerChar_idem (c : Char) :
    goToLowerChar (goToLowerChar c) = goToLowerChar c := by
  unfold goToLowerChar
  split
  · rename_i h
    rw [if_neg]
    rw [toNat_ofNat_valid (c.toNat + 32) (by omega)]
    omega
  · rfl

/-- Lowering a string twice is the same as lowering it once. -/
theorem goToLower_idem (s : String) : goToLower (goToLower s) = goToLower s := by
  unfold goToLower
  simp only [List.map_map]
  congr 1
  apply List.map_congr_left
  intro c _
  exact goToLowerChar_idem c

/-- String concatenation is associative. -/
theorem strAppend_assoc (a b c : String) : a ++ b ++ c = a ++ (b ++ c) := by
  rcases a with ⟨la⟩
  rcases b with ⟨lb⟩
  rcases c with ⟨lc⟩
  show String.mk (la ++ lb ++ lc) = String.mk (la ++ (lb ++ lc))
  rw [List.append_assoc]

/-- A key resolved in the appended tail keeps its value after merging a
sequence in front of it: later entries win. -/
theorem fieldsGet_append_right {V : Type} (a f : List (String × V)) (k : String)
    (v : V) (h : fieldsGet f k = some v) : fieldsGet (a ++ f) k = some v := by
  induction a with
  | nil => simpa using h
  | cons p rest ih =>
    simp only [List.cons_append]
    unfold fieldsGet
    rw [ih]

/-- Every key present in a Fields sequence resolves to some value. -/
theorem fieldsGet_mem {V : Type} (f : List (String × V)) (k : String)
    (h : k ∈ f.map Prod.fst) : ∃ v, fieldsGet f k = some v := by
  induction f with
  | nil => simp at h
  | cons p rest ih =>
    unfold fieldsGet
    cases hr : fieldsGet rest k with
    | some v => exact ⟨v, rfl⟩
    | none =>
      simp only [List.map_cons, List.mem_cons] at h
      rcases h with h | h
      · exact ⟨p.2, by simp [h]⟩
      · obtain ⟨v, hv⟩ := ih h
        rw [hv] at hr
        cases hr

/-- C1: every known alias token, compared case-insensitively, is accepted
by ParseLogLevel with a nil error; the aliases t and trace resolve to
LevelDebug, and every other alias resolves to the level it names. -/
theorem parse_accepts_known_aliases (s : String) :
    (goToLower s = "t" ∨ goToLower s = "trace" →
      ParseLogLevel s = (LevelDebug, none)) ∧
    (goToLower s = "d" ∨ goToLower s = "debug" →
      ParseLogLevel s = (LevelDebug, none)) ∧
    (goToLower s = "i" ∨ goToLower s = "info" →
      ParseLogLevel s = (LevelInfo, none)) ∧
    (goToLower s = "w" ∨ goToLower s = "warn" ∨ goToLower s = "warning" →
      ParseLogLevel s = (LevelWarning, none)) ∧
    (goToLower s = "e" ∨ goToLower s = "err" ∨ goToLower s = "error" →
      ParseLogLevel s = (LevelError, none)) ∧
    (goToLower s = "c" ∨ goToLower s = "critical" →
      ParseLogLevel s = (LevelCritical, none)) ∧
    (goToLower s = "f" ∨ goToLower s = "fatal" →
      ParseLogLevel s = (LevelFatal, none)) := by
  refine ⟨?_, ?_, ?_, ?_, ?_, ?_, ?_⟩ <;> intro hd
  · rcases hd with h | h <;> (unfold ParseLogLevel; rw [h]; rfl)
  · rcases hd with h | h <;> (unfold ParseLogLevel; rw [h]; rfl)
  · rcases hd with h | h <;> (unfold ParseLogLevel; rw [h]; rfl)
  · rcases hd with h | h | h <;> (unfold ParseLogLevel; rw [h]; rfl)
  · rcases hd with h | h | h <;> (unfold ParseLogLevel; rw [h]; rfl)
  · rcases hd with h | h <;> (unfold ParseLogLevel; rw [h]; rfl)
  · rcases hd with h | h <;> (unfold ParseLogLevel; rw [h]; rfl)

/-- C1 witness: the theorem applied at the inputs TRACE and Warn. -/
theorem parse_accepts_known_aliases_check :
    ParseLogLevel "TRACE" = (LevelDebug, none) ∧
    ParseLogLevel "Warn" = (LevelWarning, none) :=
  ⟨(parse_accepts_known_aliases "TRACE").1 (Or.inr (by decide)),
   (parse_accepts_known_aliases "Warn").2.2.2.1 (Or.inr (Or.inl (by decide)))⟩

/-- C2 counterexample: the full round-trip list of the claim fails at the
token undefined, which ParseLogLevel rejects, and at the token trace,
which parses to LevelDebug whose string form is debug, not trace. -/
theorem parse_roundtrip_counterexample :
    ¬ ((ParseLogLevel "undefined").2 = none ∧
        levelString (ParseLogLevel "undefined").1 = "undefined") ∧
    ¬ ((ParseLogLevel "trace").2 = none →
        levelString (ParseLogLevel "trace").1 = "trace") := by
  decide

/-- C2 amended: for every token in the list debug, info, warning, error,
critical, fatal, parsing any case variant of the token succeeds and the
string form of the resulting level is exactly that token. -/
theorem parse_roundtrip_amended (s tok : String)
    (htok : tok ∈ (["debug", "info", "warning", "error", "critical",
      "fatal"] : List String))
    (h : goToLower s = tok) :
    (ParseLogLevel s).2 = none ∧ levelString (ParseLogLevel s).1 = tok := by
  fin_cases htok <;> (unfold ParseLogLevel; rw [h]; exact ⟨rfl, rfl⟩)

/-- C2 witness: the amended theorem applied at the input Info. -/
theorem parse_roundtrip_amended_check :
    (ParseLogLevel "Info").2 = none ∧
    levelString (ParseLogLevel "Info").1 = "info" :=
  parse_roundtrip_amended "Info" "info" (by decide) (by decide)

/-- C3: on any input matching no known alias, ParseLogLevel returns
LevelUndefined with a non-nil error, and the allowed values enumerated in
the error message are exactly the string forms of the levels from
LevelFatal to LevelDebug inclusive — Trace and Undefined are absent. -/
theorem parse_unknown_returns_error (s : String)
    (h : goToLower s ∉ (["t", "trace", "d", "debug", "i", "info", "w",
      "warn", "warning", "e", "err", "error", "c", "critical", "f",
      "fatal"] : List String)) :
    ParseLogLevel s = (LevelUndefined, some (parseErrorMessage s)) ∧
    (ParseLogLevel s).2 ≠ none ∧
    allowedValues = [levelString LevelFatal, levelString LevelCritical,
      levelString LevelError, levelString LevelWarning,
      levelString LevelInfo, levelString LevelDebug] ∧
    allowedValues = ["fatal", "critical", "error", "warning", "info",
      "debug"] := by
  have he : ParseLogLevel s = (LevelUndefined, some (parseErrorMessage s)) := by
    unfold ParseLogLevel
    split <;> simp_all
  refine ⟨he, ?_, by decide, by decide⟩
  rw [he]
  simp

/-- C3 witness: the theorem applied at the unrecognized input bogus. -/
theorem parse_unknown_returns_error_check :
    ParseLogLevel "bogus" = (LevelUndefined, some (parseErrorMessage "bogus")) :=
  (parse_unknown_returns_error "bogus" (by decide)).1

/-- C4: the level constants carry the numeric encoding 0 through 7 in the
order Undefined, Fatal, Critical, Error, Warning, Info, Debug, Trace, and
each successive constant is strictly greater. -/
theorem level_constants_order :
    LevelUndefined = 0 ∧ LevelFatal = 1 ∧ LevelCritical = 2 ∧
    LevelError = 3 ∧ LevelWarning = 4 ∧ LevelInfo = 5 ∧ LevelDebug = 6 ∧
    LevelTrace = 7 ∧
    LevelUndefined < LevelFatal ∧ LevelFatal < LevelCritical ∧
    LevelCritical < LevelError ∧ LevelError < LevelWarning ∧
    LevelWarning < LevelInfo ∧ LevelInfo < LevelDebug ∧
    LevelDebug < LevelTrace := by
  decide

/-- C5: the string form of each defined constant is its canonical token,
and every level value outside the defined constants maps to unknown. -/
theorem levelString_total (l : Level) :
    levelString LevelUndefined = "undefined" ∧
    levelString LevelTrace = "trace" ∧
    levelString LevelDebug = "debug" ∧
    levelString LevelInfo = "info" ∧
    levelString LevelWarning = "warning" ∧
    levelString LevelError = "error" ∧
    levelString LevelCritical = "critical" ∧
    levelString LevelFatal = "fatal" ∧
    (l ∉ ([LevelUndefined, LevelFatal, LevelCritical, LevelError,
      LevelWarning, LevelInfo, LevelDebug, LevelTrace] : List Level) →
      levelString l = "unknown") := by
  refine ⟨by decide, by decide, by decide, by decide, by decide, by decide,
    by decide, by decide, ?_⟩
  intro h
  simp only [List.mem_cons, List.not_mem_nil, or_false, not_or] at h
  unfold levelString
  split_ifs <;> simp_all

/-- C5 witness: the theorem applied at the out-of-range level 42. -/
theorem levelString_total_check : levelString 42 = "unknown" :=
  (levelString_total 42).2.2.2.2.2.2.2.2 (by decide)

/-- C6: ParseLogLevel is case-insensitive — any input yields the same
level and the same success or failure outcome as its lowered form. -/
theorem parse_case_insensitive (s : String) :
    (ParseLogLevel s).1 = (ParseLogLevel (goToLower s)).1 ∧
    ((ParseLogLevel s).2 = none ↔ (ParseLogLevel (goToLower s)).2 = none) := by
  unfold ParseLogLevel
  rw [goToLower_idem]
  split <;> simp_all

/-- C6 witness: the theorem applied at the input InFo. -/
theorem parse_case_insensitive_check :
    (ParseLogLevel "InFo").1 = (ParseLogLevel (goToLower "InFo")).1 :=
  (parse_case_insensitive "InFo").1

/-- C7: ParseLogLevel returns a non-nil error exactly when the returned
level is LevelUndefined, and on success the level lies between LevelFatal
and LevelDebug inclusive — never LevelTrace and never LevelUndefined. -/
theorem parse_error_iff_undefined (s : String) :
    ((ParseLogLevel s).2 ≠ none ↔ (ParseLogLevel s).1 = LevelUndefined) ∧
    ((ParseLogLevel s).2 = none →
      LevelFatal ≤ (ParseLogLevel s).1 ∧ (ParseLogLevel s).1 ≤ LevelDebug ∧
      (ParseLogLevel s).1 ≠ LevelTrace ∧
      (ParseLogLevel s).1 ≠ LevelUndefined) := by
  unfold ParseLogLevel
  split <;> simp_all <;> decide

/-- C7 witness: the theorem applied at the input info. -/
theorem parse_error_iff_undefined_check :
    LevelFatal ≤ (ParseLogLevel "info").1 ∧
    (ParseLogLevel "info").1 ≤ LevelDebug ∧
    (ParseLogLevel "info").1 ≠ LevelTrace ∧
    (ParseLogLevel "info").1 ≠ LevelUndefined :=
  (parse_error_iff_undefined "info").2 (by decide)

/-- C8: for every level from LevelFatal to LevelDebug inclusive, parsing
its own string form succeeds and returns exactly that level. -/
theorem parse_levelString_inverse (l : Level)
    (h : LevelFatal ≤ l ∧ l ≤ LevelDebug) :
    ParseLogLevel (levelString l) = (l, none) := by
  have h1 : (1 : Int) ≤ l := h.1
  have h2 : l ≤ (6 : Int) := h.2
  interval_cases l <;> decide

/-- C8 witness: the theorem applied at LevelInfo. -/
theorem parse_levelString_inverse_check :
    ParseLogLevel (levelString LevelInfo) = (LevelInfo, none) :=
  parse_levelString_inverse LevelInfo (by decide)

/-- C9: WithFields returns a derived Logger that keeps the receiver level
and hooks, resolves every key of the added field set to its
last-write-wins value, and contains every added key; the receiver is a
pure value, so it is unchanged by construction. -/
theorem withFields_merge_preserves {V H : Type} (l : Logger V H)
    (f : List (String × V)) :
    (l.WithFields f).level = l.level ∧
    (l.WithFields f).hooks = l.hooks ∧
    (∀ k v, fieldsGet f k = some v →
      fieldsGet (l.WithFields f).fields k = some v) ∧
    (∀ k, k ∈ f.map Prod.fst →
      ∃ v, fieldsGet (l.WithFields f).fields k = some v) := by
  refine ⟨rfl, rfl, ?_, ?_⟩
  · intro k v h
    exact fieldsGet_append_right l.fields f k v h
  · intro k h
    obtain ⟨v, hv⟩ := fieldsGet_mem f k h
    exact ⟨v, fieldsGet_append_right l.fields f k v hv⟩

/-- C9 witness: the theorem applied to a concrete logger and a field set
with a colliding key, showing the later value wins. -/
theorem withFields_merge_preserves_check :
    fieldsGet ((Logger.WithFields ⟨[("a", 1)], LevelInfo, [7]⟩
      [("k", 2), ("k", 3)]).fields) "k" = some 3 :=
  (withFields_merge_preserves (⟨[("a", 1)], LevelInfo, [7]⟩ : Logger Nat Nat)
    [("k", 2), ("k", 3)]).2.2.1 "k" 3 (by decide)

/-- C10: the error returned on an unrecognized input embeds that input
verbatim in the message text. -/
theorem parse_error_mentions_input (s : String)
    (h : (ParseLogLevel s).2 ≠ none) :
    ∃ pre suf : String, (ParseLogLevel s).2 = some (pre ++ s ++ suf) := by
  refine ⟨"unknown logging level \x27",
    "\x27, known values are: " ++ String.intercalate ", " allowedValues, ?_⟩
  unfold ParseLogLevel at h ⊢
  split at h
  any_goals exact absurd rfl h
  show some (parseErrorMessage s) = _
  unfold parseErrorMessage
  rw [strAppend_assoc]

/-- C10 witness: the theorem applied at the unrecognized input nope. -/
theorem parse_error_mentions_input_check :
    ∃ pre suf : String, (ParseLogLevel "nope").2 = some (pre ++ "nope" ++ suf) :=
  parse_error_mentions_input "nope" (by decide)

end Log
